import Mathlib

/-!
# Cache-augmented configuration reads (`consul.go`)

A shallow embedding of the accessor in `consul.go`: the raw read path `Consul.get`
(cache lookup, store lookup on a miss, cache population on success) and the typed
getters `String`, `Int`, `Float`, `Duration` with their layered error wrapping.

Conventions of the embedding.

* Go strings are Lean strings; the byte loops of the standard library run over the
  characters, and a character outside ASCII is treated like the bytes `≥ 0x80` that
  encode it (it is never a digit, a sign or a letter).
* A Go `error` is a value of `GoError`; the `nil` error is `none`.
* A call happens at one instant: the clock reading `now` (what `time.Now().UnixNano()`
  returns, a non-negative `int64` count of nanoseconds since the epoch) and the store's
  current answers form the environment `Env` of the call.
* Durations are `int64` counts of nanoseconds; the records that hold one (`Config`,
  `cache.Cache`) carry the bounds of the type.
* The accessor's state is the `Consul` record, passed explicitly.  A getter returns
  `none` when the Go code panics (failed type assertion on a cache hit) and
  `some (result, state)` otherwise.
* The handle `KV` carries the list of lookups that were sent to the store, so that
  "no store lookup happened" is a statement about the state.
* The imported packages (`strconv`, `time`, `github.com/pkg/errors`,
  `github.com/patrickmn/go-cache`, `github.com/hashicorp/consul/api`) are embedded as far
  as the read path uses them; the floating-point parts of `strconv.ParseFloat` and
  `time.ParseDuration` are parameters (`Lib`).
-/

namespace Accessor

/-! ## Errors (`error`, `strconv.NumError`, `errors.New`, `github.com/pkg/errors`) -/

/-- The two sentinel errors of `strconv`: `ErrSyntax` and `ErrRange`. -/
inductive NumErr where
  | ErrSyntax
  | ErrRange
  deriving DecidableEq

/-- The error type `strconv.NumError`: the failing function, the input, the reason. -/
structure NumError where
  Func : String
  Num : String
  Err : NumErr
  deriving DecidableEq

/-- Go error values that occur on the read path: `*strconv.NumError`, the result of
`errors.New`, and the result of `errors.Wrap`/`errors.Wrapf` of `github.com/pkg/errors`
(a message layer holding its cause; the recorded stack trace is not modelled). -/
inductive GoError where
  | numError (e : NumError)
  | errorString (s : String)
  | withMessage (cause : GoError) (msg : String)
  deriving DecidableEq

/-- The function `errors.Wrap(err, message)` for a non-nil `err`. -/
def Wrap (err : GoError) (message : String) : GoError :=
  GoError.withMessage err message

/-- The function `errors.Cause(err)`: follow the `Cause()` links down to the first error that has none. -/
def Cause : GoError → GoError
  | GoError.withMessage cause _ => Cause cause
  | e => e

/-- The messages of the wrapper layers of an error, outermost first. -/
def layers : GoError → List String
  | GoError.withMessage cause msg => msg :: layers cause
  | _ => []

/-- The constant `errConsulMsg` (consul.go:17). -/
def errConsulMsg : String := "get value from consul"

/-! ## `strconv.ParseInt(s, 10, 64)` -/

/-- The function `strconv.syntaxError(fn, str)`. -/
def syntaxError (fn str : String) : NumError := ⟨fn, str, NumErr.ErrSyntax⟩

/-- The function `strconv.rangeError(fn, str)`. -/
def rangeError (fn str : String) : NumError := ⟨fn, str, NumErr.ErrRange⟩

/-- The function `strconv.lower(c)`: `c | ('x' - 'X')` on a byte. -/
def lower (c : Nat) : Nat := c ||| 32

/-- The digit value that the loop of `ParseUint` assigns to one byte: `c - '0'` for a
decimal digit, `lower(c) - 'a' + 10` for a letter, and `none` for the `default` case
(the case `c == '_' && base0` cannot occur, the base is 10). -/
def digitVal (c : Char) : Option Nat :=
  if 48 ≤ c.toNat ∧ c.toNat ≤ 57 then some (c.toNat - 48)
  else if c.toNat < 128 ∧ 97 ≤ lower c.toNat ∧ lower c.toNat ≤ 122 then
    some (lower c.toNat - 97 + 10)
  else none

/-- The value `maxUint64`. -/
def maxUint64 : Nat := 2 ^ 64 - 1

/-- The loop of `ParseUint` for base 10 and bit size 64, over the remaining bytes with
accumulator `n` (a `uint64`); `s0` is the whole argument, used in the error values.
The cutoff `maxUint64/10 + 1` is the smallest number whose tenfold exceeds `maxUint64`. -/
def parseUintLoop (s0 : String) : List Char → Nat → Nat × Option NumError
  | [], n => (n, none)
  | c :: cs, n =>
    match digitVal c with
    | none => (0, some (syntaxError "ParseUint" s0))
    | some d =>
      if d ≥ 10 then (0, some (syntaxError "ParseUint" s0))
      else if n ≥ maxUint64 / 10 + 1 then (maxUint64, some (rangeError "ParseUint" s0))
      else
        let n10 := (n * 10) % 2 ^ 64
        let n1 := (n10 + d) % 2 ^ 64
        if n1 < n10 ∨ n1 > maxUint64 then (maxUint64, some (rangeError "ParseUint" s0))
        else parseUintLoop s0 cs n1

/-- The call `strconv.ParseUint(s, 10, 64)`. -/
def ParseUint (s : String) : Nat × Option NumError :=
  if s.data = [] then (0, some (syntaxError "ParseUint" s))
  else parseUintLoop s s.data 0

/-- The conversion `int64(x)` of an integer: reduction to the range `[-2^63, 2^63)`. -/
def toInt64 (x : Int) : Int := (x + 2 ^ 63) % 2 ^ 64 - 2 ^ 63

/-- The call `strconv.ParseInt(s, 10, 64)`: pick off the sign, convert the rest unsigned, pass a
syntax error on under the name `ParseInt`, and check the range against
`cutoff = 1 << 63`. -/
def ParseInt (s0 : String) : Int × Option NumError :=
  if s0.data = [] then (0, some (syntaxError "ParseInt" s0))
  else
    let neg : Bool := s0.data.head? = some '-'
    let s : String :=
      if s0.data.head? = some '+' then String.mk s0.data.tail
      else if s0.data.head? = some '-' then String.mk s0.data.tail
      else s0
    let r := ParseUint s
    match r.2 with
    | some (NumError.mk _ _ NumErr.ErrSyntax) => (0, some (syntaxError "ParseInt" s0))
    | _ =>
      if neg = false ∧ r.1 ≥ 2 ^ 63 then (2 ^ 63 - 1, some (rangeError "ParseInt" s0))
      else if neg = true ∧ r.1 > 2 ^ 63 then (-(2 ^ 63), some (rangeError "ParseInt" s0))
      else (if neg then toInt64 (-(toInt64 r.1)) else toInt64 r.1, none)

/-! ## `strconv.ParseFloat(s, 64)` and `time.ParseDuration(s)` -/

/-- A `float64`, as its IEEE-754 bit pattern; `0` is the bit pattern of `+0`. -/
structure Float64 where
  bits : Nat
  deriving DecidableEq

/-- The call `strconv.ParseFloat(s, 64)`.  On the empty input `special` and `readFloat`
both give up before reading a byte and the result is `(0, syntaxError("ParseFloat", s))`.
The scan and the decimal-to-binary conversion of a non-empty input are floating-point
code and are kept as the parameter `atof64`. -/
def ParseFloat (atof64 : String → Float64 × Option NumError) (s : String) :
    Float64 × Option NumError :=
  if s.data = [] then (⟨0⟩, some (syntaxError "ParseFloat" s))
  else atof64 s

/-- The call `time.ParseDuration(s)`, a `Duration` being an `int64` count of nanoseconds:
consume an optional sign, answer `0` for `"0"`, reject what is empty after the sign with
`errors.New("time: invalid duration " + quote(orig))`.  The loop over the
number-and-unit groups of a longer input computes with `float64` and is kept as the
parameter `groups`, applied to the rest of the input, the sign and the original input.
`quote` adds the surrounding double quotes; the inputs quoted here (`""`, `"+"`, `"-"`)
need no escaping. -/
def ParseDuration (groups : String → Bool → String → Int × Option GoError) (orig : String) :
    Int × Option GoError :=
  let signed : Bool := orig.data.head? = some '-' ∨ orig.data.head? = some '+'
  let neg : Bool := orig.data.head? = some '-'
  let s : String := if signed then String.mk orig.data.tail else orig
  if s = "0" then (0, none)
  else if s.data = [] then
    (0, some (GoError.errorString ("time: invalid duration " ++ ("\"" ++ orig ++ "\""))))
  else groups s neg orig

/-- The two standard-library conversions that are parameters of the embedding. -/
structure Lib where
  atof64 : String → Float64 × Option NumError
  groups : String → Bool → String → Int × Option GoError

/-! ## The cache (`github.com/patrickmn/go-cache`, imported at consul.go:12) -/

/-- A value of type `interface{}` as the cache stores it: a string, or a value of some
other dynamic type. -/
inductive Any where
  | str (s : String)
  | other (tag : Nat)
  deriving DecidableEq

namespace cache

/-- The type `cache.Item`: the stored object and its expiry instant in nanoseconds
(`0`: the item never expires). -/
structure Item where
  Object : Any
  Expiration : Int
  deriving DecidableEq

/-- The type `cache.Cache`: the default expiry, the map of items, and the interval of the
janitor.  The janitor deletes, in the background, items whose expiry has passed; these are
items that `Get` already hides, and its runs are not part of the embedding. -/
structure Cache where
  defaultExpiration : Int
  items : String → Option Item
  cleanupInterval : Int
  defaultExpiration_int64 : -2 ^ 63 ≤ defaultExpiration ∧ defaultExpiration < 2 ^ 63

/-- The constant `cache.DefaultExpiration`. -/
def DefaultExpiration : Int := 0

/-- The constant `cache.NoExpiration`. -/
def NoExpiration : Int := -1

/-- The function `cache.New(defaultExpiration, cleanupInterval)`: an empty cache.  A default
expiry of `0` is replaced by `-1`; the library documents that with an expiration duration
of less than one (or `NoExpiration`) the items never expire by default. -/
def New (defaultExpiration cleanupInterval : Int)
    (h : -2 ^ 63 ≤ defaultExpiration ∧ defaultExpiration < 2 ^ 63) : Cache :=
  { defaultExpiration := if defaultExpiration = 0 then -1 else defaultExpiration
    items := fun _ => none
    cleanupInterval := cleanupInterval
    defaultExpiration_int64 := by split <;> omega }

/-- The method `Cache.Set(k, x, d)` at the instant `now`: the duration `DefaultExpiration`
stands for the default of the cache; a positive duration gives the expiry
`time.Now().Add(d).UnixNano()`, the sum `now + d` as an `int64` (it wraps around when the
sum does not fit), any other duration gives the expiry `0` (never); the item replaces
what the map held for `k`. -/
def Cache.Set (c : Cache) (now : Nat) (k : String) (x : Any) (d : Int) : Cache :=
  let d := if d = DefaultExpiration then c.defaultExpiration else d
  let e : Int := if d > 0 then toInt64 ((now : Int) + d) else 0
  { c with items := fun k' => if k' = k then some ⟨x, e⟩ else c.items k' }

/-- The method `Cache.Get(k)` at the instant `now`: the object of the item under `k`, unless
there is none or its expiry is positive and lies before `now`.  The map is not modified. -/
def Cache.Get (c : Cache) (now : Nat) (k : String) : Option Any :=
  match c.items k with
  | none => none
  | some item =>
    if item.Expiration > 0 ∧ (now : Int) > item.Expiration then none
    else some item.Object

end cache

/-! ## The store client (`github.com/hashicorp/consul/api`) -/

/-- The type `api.KVPair`, reduced to the key and the value. -/
structure KVPair where
  Key : String
  Value : String
  deriving DecidableEq

/-- The environment of one call: the clock reading in nanoseconds, which is a non-negative
`int64`, and what a lookup of each key in the store returns at that moment, as the pair
`(pair, err)` of `KV.Get` (the query metadata is dropped by the caller). -/
structure Env where
  now : Nat
  store : String → Option KVPair × Option GoError
  now_int64 : now < 2 ^ 63

/-- The handle `api.KV`, with the keys of the lookups sent through it so far. -/
structure KV where
  queries : List String
  deriving DecidableEq

/-- The method `KV.Get(key, nil)`: one lookup in the store. -/
def KV.Get (kv : KV) (env : Env) (key : String) : (Option KVPair × Option GoError) × KV :=
  (env.store key, { queries := kv.queries ++ [key] })

/-! ## The accessor (consul.go) -/

/-- The type `Config` (consul.go:21-27); durations are nanoseconds, and
`DefaultCacheTime`, a `time.Duration`, comes with the bounds of `int64`. -/
structure Config where
  Address : String
  Maxconns : Int
  Timeout : Int
  InsecureSkipVerify : Bool
  DefaultCacheTime : Int
  DefaultCacheTime_int64 : -2 ^ 63 ≤ DefaultCacheTime ∧ DefaultCacheTime < 2 ^ 63

/-- The type `Consul` (consul.go:62-65). -/
structure Consul where
  KV : KV
  Cache : cache.Cache

/-- The duration `time.Hour` in nanoseconds. -/
def Hour : Int := 3600 * 1000000000

/-- The constructor `New(conf)` (consul.go:31-52) when `api.NewClient` succeeds: a fresh
store handle and the cache `cache.New(conf.DefaultCacheTime, 24*time.Hour)`.  When
`api.NewClient` fails the process is ended by `log.Fatalf` and no accessor exists. -/
def New (conf : Config) : Consul :=
  { KV := { queries := [] }
    Cache := cache.New conf.DefaultCacheTime (24 * Hour) conf.DefaultCacheTime_int64 }

/-- The Go type `string`. -/
abbrev string := String

/-- The Go type `int64`, a mathematical integer in the embedding. -/
abbrev int64 := Int

/-- The method `Consul.get` (consul.go:113-132).  A cache hit returns the cached object
asserted to be a string (`none`: the assertion panics).  A miss sends one lookup to the
store; an error is returned as it is, a missing pair gives the empty string, a pair is
written to the cache under the default expiry and its value is returned. -/
def Consul.get (c : Consul) (env : Env) (key : string) :
    Option ((string × Option GoError) × Consul) :=
  match c.Cache.Get env.now key with
  | some i =>
    match i with
    | Any.str s => some ((s, none), c)
    | Any.other _ => none
  | none =>
    let r := c.KV.Get env key
    match r.1.2 with
    | some err => some (("", some err), { c with KV := r.2 })
    | none =>
      match r.1.1 with
      | none => some (("", none), { c with KV := r.2 })
      | some pair =>
        some ((pair.Value, none),
          { KV := r.2
            Cache := c.Cache.Set env.now key (Any.str pair.Value) cache.DefaultExpiration })

/-- The method `Consul.Float` (consul.go:85-97): the raw read, a fetch error wrapped with
`errConsulMsg`, then `strconv.ParseFloat(s, 64)` with its error wrapped with the parse
message and the key. -/
def Consul.Float (lib : Lib) (c : Consul) (env : Env) (key : string) :
    Option ((Float64 × Option GoError) × Consul) :=
  match c.get env key with
  | none => none
  | some ((_, some err), c') => some ((⟨0⟩, some (Wrap err errConsulMsg)), c')
  | some ((s, none), c') =>
    match ParseFloat lib.atof64 s with
    | (_, some err) =>
      some ((⟨0⟩, some (Wrap (GoError.numError err)
        ("parse float from consul value, real value is " ++ key))), c')
    | (f, none) => some ((f, none), c')

/-- The method `Consul.Duration` (consul.go:99-111): the raw read, a fetch error wrapped
with `errConsulMsg`, then `time.ParseDuration(s)` with its error wrapped with the parse
message and the key. -/
def Consul.Duration (lib : Lib) (c : Consul) (env : Env) (key : string) :
    Option ((int64 × Option GoError) × Consul) :=
  match c.get env key with
  | none => none
  | some ((_, some err), c') => some ((0, some (Wrap err errConsulMsg)), c')
  | some ((s, none), c') =>
    match ParseDuration lib.groups s with
    | (_, some err) =>
      some ((0, some (Wrap err ("parse duration from consul value, real value is " ++ key))), c')
    | (d, none) => some ((d, none), c')

/-- The method `Consul.Int` (consul.go:71-83): the raw read, a fetch error wrapped with
`errConsulMsg`, then `strconv.ParseInt(s, 10, 64)` with its error wrapped with the parse
message and the key. -/
def Consul.Int (c : Consul) (env : Env) (key : string) :
    Option ((int64 × Option GoError) × Consul) :=
  match c.get env key with
  | none => none
  | some ((_, some err), c') => some ((0, some (Wrap err errConsulMsg)), c')
  | some ((s, none), c') =>
    match ParseInt s with
    | (_, some err) =>
      some ((0, some (Wrap (GoError.numError err)
        ("parse int from consul value, real value is " ++ key))), c')
    | (i, none) => some ((i, none), c')

/-- The method `Consul.String` (consul.go:67-69): the raw read as it is. -/
def Consul.String (c : Consul) (env : Env) (key : string) :
    Option ((string × Option GoError) × Consul) :=
  c.get env key

/-! ## Sequences of calls -/

/-- One call of a getter of the interface `Consuler` that the accessor implements. -/
inductive Call where
  | String (key : string)
  | Int (key : string)
  | Float (key : string)
  | Duration (key : string)
  deriving DecidableEq

/-- The key a call is made with. -/
def Call.key : Call → string
  | Call.String k => k
  | Call.Int k => k
  | Call.Float k => k
  | Call.Duration k => k

/-- The state after one call; `none` when the call panics. -/
def Consul.call (lib : Lib) (c : Consul) (env : Env) : Call → Option Consul
  | Call.String k => (c.String env k).map Prod.snd
  | Call.Int k => (c.Int env k).map Prod.snd
  | Call.Float k => (c.Float lib env k).map Prod.snd
  | Call.Duration k => (c.Duration lib env k).map Prod.snd

/-- The state after a sequence of calls, each in its own environment; `none` when one of
them panics. -/
def Consul.run (lib : Lib) (c : Consul) : List (Env × Call) → Option Consul
  | [] => some c
  | (env, call) :: rest =>
    match c.call lib env call with
    | none => none
    | some c' => c'.run lib rest

/-! ## What a decimal literal denotes (the reading of "valid integer-formatted value") -/

/-- The number written by a list of decimal digits, most significant first. -/
def decimalValue (ds : List Char) : Nat :=
  ds.foldl (fun acc c => 10 * acc + (c.toNat - 48)) 0

/-- A non-empty run of decimal digits. -/
def isDecimal (ds : List Char) : Bool :=
  !ds.isEmpty && ds.all Char.isDigit

/-- The integer denoted by a base-10 signed integer literal that is representable in 64
bits: an optional sign, then a non-empty run of decimal digits, the value in
`[-2^63, 2^63 - 1]`.  Any other string denotes nothing. -/
def int64Literal (s : String) : Option Int :=
  match s.data with
  | '-' :: ds =>
    if isDecimal ds ∧ decimalValue ds ≤ 2 ^ 63 then some (-(decimalValue ds : Int)) else none
  | '+' :: ds =>
    if isDecimal ds ∧ decimalValue ds < 2 ^ 63 then some (decimalValue ds : Int) else none
  | ds =>
    if isDecimal ds ∧ decimalValue ds < 2 ^ 63 then some (decimalValue ds : Int) else none

/-! ## Definitions used in the statements and proofs -/

/-- The part of `ParseInt` after the call of `ParseUint`, as a function of the sign and of
what `ParseUint` returned (a device of the proofs below). -/
def parseIntRest (s0 : String) (neg : Bool) (r : Nat × Option NumError) :
    Int × Option NumError :=
  match r.2 with
  | some (NumError.mk _ _ NumErr.ErrSyntax) => (0, some (syntaxError "ParseInt" s0))
  | _ =>
    if neg = false ∧ r.1 ≥ 2 ^ 63 then (2 ^ 63 - 1, some (rangeError "ParseInt" s0))
    else if neg = true ∧ r.1 > 2 ^ 63 then (-(2 ^ 63), some (rangeError "ParseInt" s0))
    else (if neg then toInt64 (-(toInt64 r.1)) else toInt64 r.1, none)

/-- The state after a lookup of `key` was sent to the store: the same cache, one more
entry in the log of the handle. -/
def Consul.queried (c : Consul) (key : string) : Consul :=
  { c with KV := { queries := c.KV.queries ++ [key] } }

/-- Under `key` the cache holds, live or expired, nothing but a string that satisfies `P`. -/
def CachedOnly (P : String → Prop) (key : String) (c : Consul) : Prop :=
  ∀ item, c.Cache.items key = some item → ∃ v, item.Object = Any.str v ∧ P v

/-- The results of the four getters for one key in one state and environment, without
the states they leave. -/
def Consul.results (lib : Lib) (c : Consul) (env : Env) (key : string) :
    Option (string × Option GoError) × Option (int64 × Option GoError) ×
      Option (Float64 × Option GoError) × Option (int64 × Option GoError) :=
  ((c.String env key).map Prod.fst, (c.Int env key).map Prod.fst,
    (c.Float lib env key).map Prod.fst, (c.Duration lib env key).map Prod.fst)

/-! ## Scenario data -/

/-- A configuration with a default cache time of one second. -/
def oneSecondConf : Config :=
  { Address := "127.0.0.1:8500", Maxconns := 10, Timeout := 5000000000,
    InsecureSkipVerify := false, DefaultCacheTime := 1000000000,
    DefaultCacheTime_int64 := by decide }

/-- The same configuration with the default cache time left at zero. -/
def zeroConf : Config :=
  { Address := "127.0.0.1:8500", Maxconns := 10, Timeout := 5000000000,
    InsecureSkipVerify := false, DefaultCacheTime := 0,
    DefaultCacheTime_int64 := by decide }

/-- The same configuration with the largest default cache time, `math.MaxInt64`. -/
def maxConf : Config :=
  { Address := "127.0.0.1:8500", Maxconns := 10, Timeout := 5000000000,
    InsecureSkipVerify := false, DefaultCacheTime := 9223372036854775807,
    DefaultCacheTime_int64 := by decide }

/-- A store that holds nothing. -/
def emptyStore : String → Option KVPair × Option GoError := fun _ => (none, none)

/-- A store in which the value of `"limit"` has become `"43"`. -/
def changedStore : String → Option KVPair × Option GoError := fun k =>
  if k = "limit" then (some ⟨k, "43"⟩, none) else (none, none)

/-- A store in which the value of `"limit"` has become `"abc"`. -/
def brokenStore : String → Option KVPair × Option GoError := fun k =>
  if k = "limit" then (some ⟨k, "abc"⟩, none) else (none, none)

/-- A store that holds `"limit" = "42"` and `"bad" = "abc"` and nothing else. -/
def scenarioStore : String → Option KVPair × Option GoError := fun k =>
  if k = "limit" then (some ⟨k, "42"⟩, none)
  else if k = "bad" then (some ⟨k, "abc"⟩, none)
  else (none, none)

/-- A store that cannot be reached: every lookup fails. -/
def downStore : String → Option KVPair × Option GoError := fun _ =>
  (none, some (GoError.errorString "connection refused"))

/-- Conversions standing in for the two parameters of the embedding. -/
def scenarioLib : Lib :=
  { atof64 := fun _ => (⟨0⟩, none), groups := fun _ _ _ => (0, none) }

/-! ## Correctness of the integer parser -/

theorem isDigit_iff (c : Char) : c.isDigit = true ↔ 48 ≤ c.toNat ∧ c.toNat ≤ 57 := by
  simp [Char.isDigit, Char.toNat, UInt32.le_def, BitVec.le_def, UInt32.toNat]

theorem digitVal_of_isDigit {c : Char} (h : c.isDigit = true) :
    digitVal c = some (c.toNat - 48) ∧ c.toNat - 48 < 10 := by
  have h' := (isDigit_iff c).1 h
  refine ⟨by simp [digitVal, h'], by omega⟩

theorem digitVal_of_not_isDigit {c : Char} (h : c.isDigit = false) :
    digitVal c = none ∨ ∃ d, digitVal c = some d ∧ 10 ≤ d := by
  have h' : ¬ (48 ≤ c.toNat ∧ c.toNat ≤ 57) := by
    rw [← isDigit_iff]; simp [h]
  unfold digitVal
  rw [if_neg h']
  split
  · right; exact ⟨_, rfl, by omega⟩
  · left; rfl

theorem decimalValue_cons_aux (ds : List Char) (a : Nat) :
    ds.foldl (fun acc c => 10 * acc + (c.toNat - 48)) a
      = a * 10 ^ ds.length + decimalValue ds := by
  induction ds generalizing a with
  | nil => simp [decimalValue]
  | cons c cs ih =>
    simp only [List.foldl_cons, List.length_cons, decimalValue]
    rw [ih, ih (10 * 0 + (c.toNat - 48))]
    ring

theorem decimalValue_cons (c : Char) (cs : List Char) :
    decimalValue (c :: cs) = (c.toNat - 48) * 10 ^ cs.length + decimalValue cs := by
  unfold decimalValue
  rw [List.foldl_cons, decimalValue_cons_aux]
  simp [decimalValue]

/-- The loop of `ParseUint` on a run of digits: the exact value when it fits in 64 bits,
the range error with `maxUint64` otherwise. -/
theorem parseUintLoop_digits (s0 : String) (ds : List Char) (n : Nat)
    (hds : ds.all Char.isDigit = true) (hn : n < 2 ^ 64) :
    parseUintLoop s0 ds n =
      if n * 10 ^ ds.length + decimalValue ds < 2 ^ 64
      then (n * 10 ^ ds.length + decimalValue ds, none)
      else (maxUint64, some (rangeError "ParseUint" s0)) := by
  induction ds generalizing n with
  | nil =>
    simp only [parseUintLoop, decimalValue, List.foldl_nil, List.length_nil, pow_zero, mul_one,
      add_zero]
    rw [if_pos hn]
  | cons c cs ih =>
    simp only [List.all_cons, Bool.and_eq_true] at hds
    obtain ⟨hd, hd10⟩ := digitVal_of_isDigit hds.1
    have hpow : 1 ≤ 10 ^ cs.length := Nat.one_le_pow _ _ (by norm_num)
    rw [decimalValue_cons]
    simp only [parseUintLoop, hd, List.length_cons]
    rw [if_neg (by omega)]
    by_cases hcut : n ≥ maxUint64 / 10 + 1
    · rw [if_pos hcut, if_neg]
      have h1 : 2 ^ 64 ≤ n * 10 := by
        simp only [maxUint64] at hcut; norm_num at hcut ⊢; omega
      have h2 : n * 10 * 1 ≤ n * 10 * 10 ^ cs.length := Nat.mul_le_mul_left _ hpow
      rw [pow_succ]
      have : n * (10 ^ cs.length * 10) = n * 10 * 10 ^ cs.length := by ring
      omega
    · rw [if_neg hcut]
      have h10 : n * 10 < 2 ^ 64 := by
        simp only [maxUint64] at hcut; norm_num at hcut ⊢; omega
      simp only [Nat.mod_eq_of_lt h10]
      by_cases hov : n * 10 + (c.toNat - 48) < 2 ^ 64
      · simp only [Nat.mod_eq_of_lt hov]
        rw [if_neg (by simp only [maxUint64]; omega), ih _ hds.2 hov]
        have : (n * 10 + (c.toNat - 48)) * 10 ^ cs.length + decimalValue cs
            = n * 10 ^ (cs.length + 1) + ((c.toNat - 48) * 10 ^ cs.length + decimalValue cs) := by
          ring
        rw [this]
      · have hmod : (n * 10 + (c.toNat - 48)) % 2 ^ 64 = n * 10 + (c.toNat - 48) - 2 ^ 64 := by
          rw [Nat.mod_eq_sub_mod (by omega), Nat.mod_eq_of_lt (by omega)]
        rw [if_pos (by left; rw [hmod]; omega), if_neg]
        have h2 : (n * 10 + (c.toNat - 48)) * 1 ≤ (n * 10 + (c.toNat - 48)) * 10 ^ cs.length :=
          Nat.mul_le_mul_left _ hpow
        have : n * 10 ^ (cs.length + 1) + ((c.toNat - 48) * 10 ^ cs.length + decimalValue cs)
            = (n * 10 + (c.toNat - 48)) * 10 ^ cs.length + decimalValue cs := by ring
        omega

/-- The loop of `ParseUint` on input that has a byte which is no decimal digit: an error,
either the syntax error or (when the digits before that byte already overflow) the range
error with `maxUint64`. -/
theorem parseUintLoop_not_digits (s0 : String) (ds : List Char) (n : Nat)
    (hds : ds.all Char.isDigit = false) :
    parseUintLoop s0 ds n = (0, some (syntaxError "ParseUint" s0)) ∨
      parseUintLoop s0 ds n = (maxUint64, some (rangeError "ParseUint" s0)) := by
  induction ds generalizing n with
  | nil => simp at hds
  | cons c cs ih =>
    cases hc : c.isDigit with
    | false =>
      rcases digitVal_of_not_isDigit hc with h | ⟨d, h, hd⟩
      · left; simp [parseUintLoop, h]
      · left; simp [parseUintLoop, h, hd]
    | true =>
      have hcs : cs.all Char.isDigit = false := by
        simpa [List.all_cons, hc] using hds
      obtain ⟨hd, hd10⟩ := digitVal_of_isDigit hc
      simp only [parseUintLoop, hd]
      rw [if_neg (by omega)]
      split
      · right; rfl
      · split
        · right; rfl
        · exact ih _ hcs

/-- The result of `ParseUint` on a non-empty run of digits. -/
theorem ParseUint_decimal (ds : List Char) (h : isDecimal ds = true) :
    ParseUint (String.mk ds) =
      if decimalValue ds < 2 ^ 64 then (decimalValue ds, none)
      else (maxUint64, some (rangeError "ParseUint" (String.mk ds))) := by
  simp only [isDecimal, Bool.and_eq_true, Bool.not_eq_true', List.isEmpty_eq_false] at h
  have hne : ds ≠ [] := by
    intro h0; rw [h0] at h; simp at h
  unfold ParseUint
  rw [if_neg hne, parseUintLoop_digits _ _ _ h.2 (by norm_num)]
  simp

/-- The result of `ParseUint` on anything else. -/
theorem ParseUint_not_decimal (ds : List Char) (h : isDecimal ds = false) :
    ParseUint (String.mk ds) = (0, some (syntaxError "ParseUint" (String.mk ds))) ∨
      ParseUint (String.mk ds) = (maxUint64, some (rangeError "ParseUint" (String.mk ds))) := by
  unfold ParseUint
  by_cases hne : ds = []
  · left; simp [hne]
  · rw [if_neg hne]
    apply parseUintLoop_not_digits
    cases hds : ds.all Char.isDigit with
    | false => rfl
    | true =>
      have : ds.isEmpty = false := by
        cases ds with
        | nil => exact absurd rfl hne
        | cons _ _ => rfl
      simp [isDecimal, hds, this] at h

theorem toInt64_small (v : Nat) (h : v < 2 ^ 63) : toInt64 (v : Int) = v := by
  unfold toInt64
  omega

theorem toInt64_neg (v : Nat) (h : v ≤ 2 ^ 63) :
    toInt64 (-(toInt64 (v : Int))) = -(v : Int) := by
  unfold toInt64
  omega

theorem ParseInt_minus (cs : List Char) :
    ParseInt (String.mk ('-' :: cs)) =
      parseIntRest (String.mk ('-' :: cs)) true (ParseUint (String.mk cs)) := by
  simp [ParseInt, parseIntRest]

theorem ParseInt_plus (cs : List Char) :
    ParseInt (String.mk ('+' :: cs)) =
      parseIntRest (String.mk ('+' :: cs)) false (ParseUint (String.mk cs)) := by
  simp [ParseInt, parseIntRest]

theorem ParseInt_unsigned (c : Char) (cs : List Char) (hp : c ≠ '+') (hm : c ≠ '-') :
    ParseInt (String.mk (c :: cs)) =
      parseIntRest (String.mk (c :: cs)) false (ParseUint (String.mk (c :: cs))) := by
  simp [ParseInt, parseIntRest, hp, hm]

theorem parseIntRest_error (s0 : String) (neg : Bool) (r : Nat × Option NumError)
    (fn s : String)
    (h : r = (0, some (syntaxError fn s)) ∨ r = (maxUint64, some (rangeError fn s))) :
    ∃ v e, parseIntRest s0 neg r = (v, some (NumError.mk "ParseInt" s0 e)) := by
  rcases h with rfl | rfl
  · exact ⟨0, NumErr.ErrSyntax, by simp [parseIntRest, syntaxError]⟩
  · cases neg
    · exact ⟨2 ^ 63 - 1, NumErr.ErrRange, by simp [parseIntRest, rangeError, maxUint64]⟩
    · exact ⟨-(2 ^ 63), NumErr.ErrRange, by simp [parseIntRest, rangeError, maxUint64]⟩

theorem parseIntRest_decimal (s0 : String) (neg : Bool) (ds : List Char)
    (h : isDecimal ds = true) :
    parseIntRest s0 neg (ParseUint (String.mk ds)) =
      if neg = true then
        (if decimalValue ds ≤ 2 ^ 63 then (-(decimalValue ds : Int), none)
         else (-(2 ^ 63), some (rangeError "ParseInt" s0)))
      else
        (if decimalValue ds < 2 ^ 63 then ((decimalValue ds : Int), none)
         else (2 ^ 63 - 1, some (rangeError "ParseInt" s0))) := by
  rw [ParseUint_decimal ds h]
  have e63 : (2 : Nat) ^ 63 = 9223372036854775808 := by norm_num
  have e64 : (2 : Nat) ^ 64 = 18446744073709551616 := by norm_num
  rw [e63, e64]
  by_cases h64 : decimalValue ds < 18446744073709551616
  · rw [if_pos h64]
    cases neg
    · by_cases h63 : decimalValue ds < 9223372036854775808
      · have := toInt64_small _ (by omega : decimalValue ds < 2 ^ 63)
        simp [parseIntRest, h63, this]
      · simp [parseIntRest, h63]
    · by_cases h63 : decimalValue ds ≤ 9223372036854775808
      · have := toInt64_neg _ (by omega : decimalValue ds ≤ 2 ^ 63)
        simp [parseIntRest, h63, this]
      · simp [parseIntRest, h63]
  · rw [if_neg h64]
    cases neg
    · have h63 : ¬ decimalValue ds < 9223372036854775808 := by omega
      simp [parseIntRest, rangeError, maxUint64, h63]
    · have h63 : ¬ decimalValue ds ≤ 9223372036854775808 := by omega
      simp [parseIntRest, rangeError, maxUint64, h63]

theorem int64Literal_unsigned (c : Char) (cs : List Char) (hp : c ≠ '+') (hm : c ≠ '-') :
    int64Literal (String.mk (c :: cs)) =
      if isDecimal (c :: cs) ∧ decimalValue (c :: cs) < 2 ^ 63
      then some (decimalValue (c :: cs) : Int) else none := by
  simp only [int64Literal]
  split
  · rename_i heq; injection heq with h1 _; exact absurd h1 hm
  · rename_i heq; injection heq with h1 _; exact absurd h1 hp
  · rfl

/-- The parser `ParseInt` accepts every literal of a 64-bit integer and returns what it denotes. -/
theorem ParseInt_of_literal (s : String) (n : Int) (h : int64Literal s = some n) :
    ParseInt s = (n, none) := by
  obtain ⟨ds⟩ := s
  cases ds with
  | nil => simp [int64Literal, isDecimal] at h
  | cons c cs =>
    by_cases hm : c = '-'
    · subst hm
      simp only [int64Literal] at h
      split at h
      · rename_i hd
        rw [ParseInt_minus, parseIntRest_decimal _ _ _ hd.1]
        simp only [if_true, if_pos hd.2]
        injection h with h; rw [h]
      · exact absurd h (by simp)
    · by_cases hp : c = '+'
      · subst hp
        simp only [int64Literal] at h
        split at h
        · rename_i hd
          rw [ParseInt_plus, parseIntRest_decimal _ _ _ hd.1]
          simp only [Bool.false_eq_true, if_false, if_pos hd.2]
          injection h with h; rw [h]
        · exact absurd h (by simp)
      · have hlit := int64Literal_unsigned c cs hp hm
        rw [hlit] at h
        split at h
        · rename_i hd
          rw [ParseInt_unsigned _ _ hp hm, parseIntRest_decimal _ _ _ hd.1]
          simp only [Bool.false_eq_true, if_false, if_pos hd.2]
          injection h with h; rw [h]
        · exact absurd h (by simp)

/-- The parser `ParseInt` rejects every other string, with a `NumError` that names `ParseInt` and
the input. -/
theorem ParseInt_of_not_literal (s : String) (h : int64Literal s = none) :
    ∃ v e, ParseInt s = (v, some (NumError.mk "ParseInt" s e)) := by
  have key : ∀ (s0 : String) (neg : Bool) (ds : List Char),
      (isDecimal ds = true →
        ¬ (if neg = true then decimalValue ds ≤ 2 ^ 63 else decimalValue ds < 2 ^ 63)) →
      ∃ v e, parseIntRest s0 neg (ParseUint (String.mk ds)) =
        (v, some (NumError.mk "ParseInt" s0 e)) := by
    intro s0 neg ds hnot
    cases hd : isDecimal ds with
    | false => exact parseIntRest_error _ _ _ _ _ (ParseUint_not_decimal ds hd)
    | true =>
      have hn := hnot hd
      rw [parseIntRest_decimal _ _ _ hd]
      cases neg
      · simp only [Bool.false_eq_true, if_false] at hn ⊢
        rw [if_neg hn]; exact ⟨_, _, rfl⟩
      · simp only [if_true] at hn ⊢
        rw [if_neg hn]; exact ⟨_, _, rfl⟩
  obtain ⟨ds⟩ := s
  cases ds with
  | nil => exact ⟨0, NumErr.ErrSyntax, by simp [ParseInt, syntaxError]⟩
  | cons c cs =>
    by_cases hm : c = '-'
    · subst hm
      rw [ParseInt_minus]
      apply key
      intro hd hv
      simp only [if_true] at hv
      simp [int64Literal, hd, hv] at h
      omega
    · by_cases hp : c = '+'
      · subst hp
        rw [ParseInt_plus]
        apply key
        intro hd hv
        simp only [Bool.false_eq_true, if_false] at hv
        simp [int64Literal, hd, hv] at h
        omega
      · rw [ParseInt_unsigned _ _ hp hm]
        apply key
        intro hd hv
        simp only [Bool.false_eq_true, if_false] at hv
        have hlit := int64Literal_unsigned c cs hp hm
        rw [hlit, if_pos ⟨hd, hv⟩] at h
        exact absurd h (by simp)

/-! ## The read path, case by case -/

theorem get_hit (c : Consul) (env : Env) (key s : String)
    (h : c.Cache.Get env.now key = some (Any.str s)) :
    c.get env key = some ((s, none), c) := by
  simp [Consul.get, h]

theorem get_miss_err (c : Consul) (env : Env) (key : String) (e : GoError)
    (h : c.Cache.Get env.now key = none) (he : (env.store key).2 = some e) :
    c.get env key = some (("", some e), c.queried key) := by
  simp [Consul.get, h, KV.Get, he, Consul.queried]

theorem get_miss_absent (c : Consul) (env : Env) (key : String)
    (h : c.Cache.Get env.now key = none) (he : env.store key = (none, none)) :
    c.get env key = some (("", none), c.queried key) := by
  simp [Consul.get, h, KV.Get, he, Consul.queried]

theorem get_miss_pair (c : Consul) (env : Env) (key : String) (pair : KVPair)
    (h : c.Cache.Get env.now key = none) (he : env.store key = (some pair, none)) :
    c.get env key = some ((pair.Value, none),
      { KV := { queries := c.KV.queries ++ [key] }
        Cache := c.Cache.Set env.now key (Any.str pair.Value) cache.DefaultExpiration }) := by
  simp [Consul.get, h, KV.Get, he]

/-- What a call of `get` can do to the state: nothing, or log a lookup, or log a lookup
and cache the value of the pair the store returned. -/
theorem get_state (c c' : Consul) (env : Env) (key : String) (r : String × Option GoError)
    (h : c.get env key = some (r, c')) :
    c' = c ∨ c' = c.queried key ∨
      ∃ pair, (env.store key).1 = some pair ∧ r = (pair.Value, none) ∧
        c' = { KV := { queries := c.KV.queries ++ [key] }
               Cache := c.Cache.Set env.now key (Any.str pair.Value) cache.DefaultExpiration } := by
  unfold Consul.get at h
  split at h
  · split at h
    · injection h with h; injection h with _ h2; exact Or.inl h2.symm
    · exact absurd h (by simp)
  · simp only [KV.Get] at h
    split at h
    · injection h with h; injection h with _ h2; exact Or.inr (Or.inl h2.symm)
    · split at h
      · injection h with h; injection h with _ h2; exact Or.inr (Or.inl h2.symm)
      · rename_i pair hp
        injection h with h; injection h with h1 h2
        exact Or.inr (Or.inr ⟨pair, hp, h1.symm, h2.symm⟩)

/-- Every getter leaves the state that its call of `get` leaves. -/
theorem call_state (lib : Lib) (c c' : Consul) (env : Env) (call : Call)
    (h : c.call lib env call = some c') : ∃ r, c.get env call.key = some (r, c') := by
  cases call with
  | String k =>
    simp only [Consul.call, Consul.String, Option.map_eq_some'] at h
    obtain ⟨⟨r, c1⟩, h1, h2⟩ := h
    exact ⟨r, by simpa [Call.key, ← h2] using h1⟩
  | Int k =>
    simp only [Consul.call, Consul.Int, Option.map_eq_some'] at h
    obtain ⟨⟨r, c1⟩, h1, h2⟩ := h
    simp only [Call.key]
    split at h1
    · exact absurd h1 (by simp)
    · rename_i hg; injection h1 with h1; injection h1 with _ h3
      exact ⟨_, by rw [hg, h3, ← h2]⟩
    · rename_i hg
      split at h1 <;>
      · injection h1 with h1; injection h1 with _ h3
        exact ⟨_, by rw [hg, h3, ← h2]⟩
  | Float k =>
    simp only [Consul.call, Consul.Float, Option.map_eq_some'] at h
    obtain ⟨⟨r, c1⟩, h1, h2⟩ := h
    simp only [Call.key]
    split at h1
    · exact absurd h1 (by simp)
    · rename_i hg; injection h1 with h1; injection h1 with _ h3
      exact ⟨_, by rw [hg, h3, ← h2]⟩
    · rename_i hg
      split at h1 <;>
      · injection h1 with h1; injection h1 with _ h3
        exact ⟨_, by rw [hg, h3, ← h2]⟩
  | Duration k =>
    simp only [Consul.call, Consul.Duration, Option.map_eq_some'] at h
    obtain ⟨⟨r, c1⟩, h1, h2⟩ := h
    simp only [Call.key]
    split at h1
    · exact absurd h1 (by simp)
    · rename_i hg; injection h1 with h1; injection h1 with _ h3
      exact ⟨_, by rw [hg, h3, ← h2]⟩
    · rename_i hg
      split at h1 <;>
      · injection h1 with h1; injection h1 with _ h3
        exact ⟨_, by rw [hg, h3, ← h2]⟩

/-! ## What the cache can hold -/

theorem cachedOnly_New (P : String → Prop) (key : String) (conf : Config) :
    CachedOnly P key (New conf) := by
  intro item h
  simp [New, cache.New] at h

theorem cachedOnly_Get (P : String → Prop) (key : String) (c : Consul) (now : Nat)
    (h : CachedOnly P key c) :
    c.Cache.Get now key = none ∨ ∃ v, P v ∧ c.Cache.Get now key = some (Any.str v) := by
  unfold cache.Cache.Get
  cases hi : c.Cache.items key with
  | none => left; rfl
  | some item =>
    obtain ⟨v, hv, hP⟩ := h item hi
    simp only
    split
    · left; rfl
    · right; exact ⟨v, hP, by rw [hv]⟩

/-- One call keeps `CachedOnly P key`, provided the store, at the time of the call, holds
under `key` nothing but a value that satisfies `P`. -/
theorem cachedOnly_call (P : String → Prop) (key : String) (lib : Lib) (c c' : Consul)
    (env : Env) (call : Call) (h : CachedOnly P key c)
    (hs : ∀ pair, (env.store key).1 = some pair → P pair.Value)
    (hc : c.call lib env call = some c') : CachedOnly P key c' := by
  obtain ⟨r, hg⟩ := call_state lib c c' env call hc
  rcases get_state c c' env call.key r hg with rfl | rfl | ⟨pair, hp, _, rfl⟩
  · exact h
  · exact h
  · intro item hi
    simp only [cache.Cache.Set] at hi
    by_cases hk : key = call.key
    · rw [if_pos hk] at hi
      injection hi with hi
      rw [← hk] at hp
      exact ⟨pair.Value, by rw [← hi], hs pair hp⟩
    · rw [if_neg hk] at hi
      exact h item hi

/-- A sequence of calls keeps `CachedOnly P key`, provided the store held under `key`
nothing but a value that satisfies `P` at each of the calls. -/
theorem cachedOnly_run (P : String → Prop) (key : String) (lib : Lib)
    (hist : List (Env × Call)) (c c' : Consul) (h : CachedOnly P key c)
    (hs : ∀ p ∈ hist, ∀ pair, (p.1.store key).1 = some pair → P pair.Value)
    (hr : c.run lib hist = some c') : CachedOnly P key c' := by
  induction hist generalizing c with
  | nil =>
    simp only [Consul.run] at hr
    injection hr with hr; rw [← hr]; exact h
  | cons p rest ih =>
    obtain ⟨env, call⟩ := p
    simp only [Consul.run] at hr
    split at hr
    · exact absurd hr (by simp)
    · rename_i c1 hc1
      have h1 := cachedOnly_call P key lib c c1 env call h
        (hs (env, call) (List.mem_cons_self _ _)) hc1
      exact ih c1 h1 (fun p hp => hs p (List.mem_cons_of_mem _ hp)) hr

/-- A read whose cache lookup cannot meet a non-string does not panic. -/
theorem get_total (c : Consul) (env : Env) (key : String)
    (h : CachedOnly (fun _ => True) key c) : ∃ r c', c.get env key = some (r, c') := by
  rcases cachedOnly_Get _ key c env.now h with hn | ⟨v, _, hv⟩
  · rcases hs : env.store key with ⟨p, e⟩
    cases e with
    | some e => exact ⟨_, _, get_miss_err c env key e hn (by rw [hs])⟩
    | none =>
      cases p with
      | none => exact ⟨_, _, get_miss_absent c env key hn hs⟩
      | some pair => exact ⟨_, _, get_miss_pair c env key pair hn hs⟩
  · exact ⟨_, _, get_hit c env key v hv⟩

/-- A getter panics only if its call of `get` does. -/
theorem call_total (lib : Lib) (c : Consul) (env : Env) (call : Call)
    (h : ∃ r c', c.get env call.key = some (r, c')) : ∃ c', c.call lib env call = some c' := by
  obtain ⟨⟨s, e⟩, c', hg⟩ := h
  cases call with
  | String k =>
    simp only [Call.key] at hg
    exact ⟨c', by simp [Consul.call, Consul.String, hg]⟩
  | Int k =>
    simp only [Call.key] at hg
    cases e with
    | some e => exact ⟨c', by simp [Consul.call, Consul.Int, hg]⟩
    | none =>
      rcases hp : ParseInt s with ⟨i, _ | err⟩
      · exact ⟨c', by simp [Consul.call, Consul.Int, hg, hp]⟩
      · exact ⟨c', by simp [Consul.call, Consul.Int, hg, hp]⟩
  | Float k =>
    simp only [Call.key] at hg
    cases e with
    | some e => exact ⟨c', by simp [Consul.call, Consul.Float, hg]⟩
    | none =>
      rcases hp : ParseFloat lib.atof64 s with ⟨i, _ | err⟩
      · exact ⟨c', by simp [Consul.call, Consul.Float, hg, hp]⟩
      · exact ⟨c', by simp [Consul.call, Consul.Float, hg, hp]⟩
  | Duration k =>
    simp only [Call.key] at hg
    cases e with
    | some e => exact ⟨c', by simp [Consul.call, Consul.Duration, hg]⟩
    | none =>
      rcases hp : ParseDuration lib.groups s with ⟨i, _ | err⟩
      · exact ⟨c', by simp [Consul.call, Consul.Duration, hg, hp]⟩
      · exact ⟨c', by simp [Consul.call, Consul.Duration, hg, hp]⟩

/-! ## The messages of the two kinds of wrapper -/

/-- A message that starts with the letter `p` is not the constant `errConsulMsg`. -/
theorem ne_errConsulMsg (rest key : String) :
    String.mk ('p' :: rest.data) ++ key ≠ errConsulMsg := by
  intro h
  have h2 := congrArg String.data h
  rw [String.data_append] at h2
  simp [errConsulMsg] at h2

theorem parse_int_msg_ne (key : String) :
    "parse int from consul value, real value is " ++ key ≠ errConsulMsg :=
  ne_errConsulMsg "arse int from consul value, real value is " key

theorem parse_float_msg_ne (key : String) :
    "parse float from consul value, real value is " ++ key ≠ errConsulMsg :=
  ne_errConsulMsg "arse float from consul value, real value is " key

theorem parse_duration_msg_ne (key : String) :
    "parse duration from consul value, real value is " ++ key ≠ errConsulMsg :=
  ne_errConsulMsg "arse duration from consul value, real value is " key

/-! ## Reachable states -/

/-- A key that no lookup of the history found in the store is not in the cache. -/
theorem absent_not_cached (lib : Lib) (conf : Config) (hist : List (Env × Call)) (c : Consul)
    (key : String) (now : Nat)
    (hrun : (New conf).run lib hist = some c)
    (hpast : ∀ p ∈ hist, (p.1.store key).1 = none) :
    c.Cache.Get now key = none := by
  have hinv : CachedOnly (fun _ => False) key c :=
    cachedOnly_run _ key lib hist _ c (cachedOnly_New _ key conf)
      (fun p hp pair hpair => by rw [hpast p hp] at hpair; exact absurd hpair (by simp)) hrun
  rcases cachedOnly_Get _ key c now hinv with h | ⟨_, hf, _⟩
  · exact h
  · exact absurd hf id

/-- Under a key whose lookups in the history all returned the value `v` or no pair, the
cache holds nothing but `v`. -/
theorem only_value_cached (lib : Lib) (conf : Config) (hist : List (Env × Call)) (c : Consul)
    (key v : String) (now : Nat)
    (hrun : (New conf).run lib hist = some c)
    (hpast : ∀ p ∈ hist, ∀ q, (p.1.store key).1 = some q → q.Value = v) :
    c.Cache.Get now key = none ∨ c.Cache.Get now key = some (Any.str v) := by
  have hinv : CachedOnly (fun w => w = v) key c :=
    cachedOnly_run _ key lib hist _ c (cachedOnly_New _ key conf) hpast hrun
  rcases cachedOnly_Get _ key c now hinv with h | ⟨w, hw, h⟩
  · exact Or.inl h
  · rw [hw] at h; exact Or.inr h

/-- The raw read when the cache holds no live entry for the key or a live entry with the
value that the store holds: that value, from the cache or from the store. -/
theorem get_current_value (c : Consul) (env : Env) (key : String) (pair : KVPair)
    (hcache : ∀ x, c.Cache.Get env.now key = some x → x = Any.str pair.Value)
    (hnow : env.store key = (some pair, none)) :
    ∃ c', c.get env key = some ((pair.Value, none), c') := by
  cases hg : c.Cache.Get env.now key with
  | none => exact ⟨_, get_miss_pair c env key pair hg hnow⟩
  | some x =>
    have hx := hcache x hg
    subst hx
    exact ⟨_, get_hit c env key pair.Value hg⟩

/-! ## The claims -/

/-- C1, as stated, fails while the cache holds a live entry for the key.  With a default
cache time of one second and the store holding `"limit" = "42"`, `Int("limit")` at `0s`
caches `"42"`; at `0.5s` the key is absent from the store (a lookup returns no pair and no
error), and `String("limit")` returns `("42", nil)`, from the cache, without a lookup
being sent (the log holds the one lookup of the first call). -/
theorem String_serves_live_entry :
    emptyStore "limit" = (none, none) ∧
    (((New oneSecondConf).Int ⟨0, scenarioStore, by decide⟩ "limit").bind fun r1 =>
      (r1.2.String ⟨500000000, emptyStore, by decide⟩ "limit").map fun r2 =>
        (r2.1, r2.2.KV.queries))
      = some (("42", none), ["limit"]) := by
  decide

/-- C1, amended. For a key that is absent from the store (the store lookup returns no pair
and no error) and for which the cache holds no live entry, `String(key)` returns the empty
string and a nil error; it sends one lookup to the store and leaves the cache as it
was. -/
theorem String_absent_no_live_entry (c : Consul) (env : Env) (key : String)
    (hmiss : c.Cache.Get env.now key = none)
    (habs : env.store key = (none, none)) :
    c.String env key = some (("", none), c.queried key) :=
  get_miss_absent c env key hmiss habs

theorem String_absent_no_live_entry_witness :
    (Consul.mk ⟨["limit"]⟩ ((New oneSecondConf).Cache.Set 0 "limit" (Any.str "42") 0)).Cache.Get
        1100000000 "limit" = none ∧
    emptyStore "limit" = (none, none) ∧
    (Consul.mk ⟨["limit"]⟩ ((New oneSecondConf).Cache.Set 0 "limit" (Any.str "42") 0)).String
        ⟨1100000000, emptyStore, by decide⟩ "limit"
      = some (("", none),
          (Consul.mk ⟨["limit"]⟩
            ((New oneSecondConf).Cache.Set 0 "limit" (Any.str "42") 0)).queried "limit") :=
  ⟨by decide, rfl,
    String_absent_no_live_entry
      (Consul.mk ⟨["limit"]⟩ ((New oneSecondConf).Cache.Set 0 "limit" (Any.str "42") 0))
      ⟨1100000000, emptyStore, by decide⟩ "limit" (by decide) rfl⟩

/-- C2, as stated, fails while the cache holds a live entry for the key.  With a default
cache time of one second and the store holding `"limit" = "42"`, `Int("limit")` at `0s`
caches `"42"`; at `0.5s` the key is absent from the store, and `Int("limit")` returns
`(42, nil)`: no error at all, where the claim has a parse error. -/
theorem Int_absent_serves_live_entry :
    emptyStore "limit" = (none, none) ∧
    (((New oneSecondConf).Int ⟨0, scenarioStore, by decide⟩ "limit").bind fun r1 =>
      (r1.2.Int ⟨500000000, emptyStore, by decide⟩ "limit").map fun r2 =>
        (r2.1, r2.2.KV.queries))
      = some ((42, none), ["limit"]) := by
  decide

/-- C2, amended. For a key that is absent from the store (the store lookup returns no pair
and no error) and for which the cache holds no live entry, `Int`, `Float` and `Duration`
each return the zero value and a parse error: the parser's failure on the empty string
under one layer with the message `parse ... from consul value, real value is <key>`; no
layer of the error is the fetch wrapper `get value from consul`. -/
theorem typed_getters_absent_no_live_entry (lib : Lib) (c : Consul) (env : Env) (key : String)
    (hmiss : c.Cache.Get env.now key = none)
    (habs : env.store key = (none, none)) :
    ∃ eI eF eD : GoError,
      c.Int env key = some ((0, some eI), c.queried key) ∧
      c.Float lib env key = some ((⟨0⟩, some eF), c.queried key) ∧
      c.Duration lib env key = some ((0, some eD), c.queried key) ∧
      eI = GoError.withMessage (GoError.numError (syntaxError "ParseInt" ""))
            ("parse int from consul value, real value is " ++ key) ∧
      eF = GoError.withMessage (GoError.numError (syntaxError "ParseFloat" ""))
            ("parse float from consul value, real value is " ++ key) ∧
      eD = GoError.withMessage (GoError.errorString "time: invalid duration \"\"")
            ("parse duration from consul value, real value is " ++ key) ∧
      (ParseInt "").2 = some (syntaxError "ParseInt" "") ∧
      (ParseFloat lib.atof64 "").2 = some (syntaxError "ParseFloat" "") ∧
      (ParseDuration lib.groups "").2
        = some (GoError.errorString "time: invalid duration \"\"") ∧
      errConsulMsg ∉ layers eI ∧ errConsulMsg ∉ layers eF ∧ errConsulMsg ∉ layers eD := by
  have hg := get_miss_absent c env key hmiss habs
  have hI : ParseInt "" = (0, some (syntaxError "ParseInt" "")) := by decide
  have hF : ParseFloat lib.atof64 "" = (⟨0⟩, some (syntaxError "ParseFloat" "")) := by
    simp [ParseFloat]
  have hD : ParseDuration lib.groups ""
      = (0, some (GoError.errorString "time: invalid duration \"\"")) := by
    simp [ParseDuration]
  refine ⟨_, _, _, ?_, ?_, ?_, rfl, rfl, rfl, by rw [hI], by rw [hF], by rw [hD], ?_, ?_, ?_⟩
  · simp [Consul.Int, hg, hI, Wrap]
  · simp [Consul.Float, hg, hF, Wrap]
  · simp [Consul.Duration, hg, hD, Wrap]
  · simpa [layers] using (parse_int_msg_ne key).symm
  · simpa [layers] using (parse_float_msg_ne key).symm
  · simpa [layers] using (parse_duration_msg_ne key).symm

theorem typed_getters_absent_no_live_entry_witness :
    (Consul.mk ⟨["limit"]⟩ ((New oneSecondConf).Cache.Set 0 "limit" (Any.str "42") 0)).Cache.Get
        1100000000 "limit" = none ∧
    emptyStore "limit" = (none, none) ∧
    ∃ eI eF eD : GoError,
      (Consul.mk ⟨["limit"]⟩ ((New oneSecondConf).Cache.Set 0 "limit" (Any.str "42") 0)).Int
          ⟨1100000000, emptyStore, by decide⟩ "limit"
        = some ((0, some eI),
            (Consul.mk ⟨["limit"]⟩
              ((New oneSecondConf).Cache.Set 0 "limit" (Any.str "42") 0)).queried "limit") ∧
      (Consul.mk ⟨["limit"]⟩ ((New oneSecondConf).Cache.Set 0 "limit" (Any.str "42") 0)).Float
          scenarioLib ⟨1100000000, emptyStore, by decide⟩ "limit"
        = some ((⟨0⟩, some eF),
            (Consul.mk ⟨["limit"]⟩
              ((New oneSecondConf).Cache.Set 0 "limit" (Any.str "42") 0)).queried "limit") ∧
      (Consul.mk ⟨["limit"]⟩
          ((New oneSecondConf).Cache.Set 0 "limit" (Any.str "42") 0)).Duration
          scenarioLib ⟨1100000000, emptyStore, by decide⟩ "limit"
        = some ((0, some eD),
            (Consul.mk ⟨["limit"]⟩
              ((New oneSecondConf).Cache.Set 0 "limit" (Any.str "42") 0)).queried "limit") ∧
      eI = GoError.withMessage (GoError.numError (syntaxError "ParseInt" ""))
            ("parse int from consul value, real value is " ++ "limit") ∧
      eF = GoError.withMessage (GoError.numError (syntaxError "ParseFloat" ""))
            ("parse float from consul value, real value is " ++ "limit") ∧
      eD = GoError.withMessage (GoError.errorString "time: invalid duration \"\"")
            ("parse duration from consul value, real value is " ++ "limit") ∧
      (ParseInt "").2 = some (syntaxError "ParseInt" "") ∧
      (ParseFloat scenarioLib.atof64 "").2 = some (syntaxError "ParseFloat" "") ∧
      (ParseDuration scenarioLib.groups "").2
        = some (GoError.errorString "time: invalid duration \"\"") ∧
      errConsulMsg ∉ layers eI ∧ errConsulMsg ∉ layers eF ∧ errConsulMsg ∉ layers eD :=
  ⟨by decide, rfl,
    typed_getters_absent_no_live_entry scenarioLib
      (Consul.mk ⟨["limit"]⟩ ((New oneSecondConf).Cache.Set 0 "limit" (Any.str "42") 0))
      ⟨1100000000, emptyStore, by decide⟩ "limit" (by decide) rfl⟩

/-- C3, as stated, fails while the cache holds a live entry with an earlier value of the
key.  With a default cache time of one second and the store holding `"limit" = "42"`,
`Int("limit")` at `0s` caches `"42"`; at `0.5s` the store holds `"limit" = "43"`, a valid
integer literal, and `Int("limit")` returns `(42, nil)`, not `43`, without a lookup being
sent. -/
theorem Int_serves_earlier_value :
    changedStore "limit" = (some ⟨"limit", "43"⟩, none) ∧
    int64Literal "43" = some 43 ∧
    (((New oneSecondConf).Int ⟨0, scenarioStore, by decide⟩ "limit").bind fun r1 =>
      (r1.2.Int ⟨500000000, changedStore, by decide⟩ "limit").map fun r2 =>
        (r2.1, r2.2.KV.queries))
      = some ((42, none), ["limit"]) := by
  decide

/-- C3, amended. For a key present in the store whose value is a valid integer literal (a
base-10 signed integer representable in 64 bits, denoting `n`), and for which the cache
holds no live entry or a live entry with that same value, `Int(key)` returns `n` and a nil
error. -/
theorem Int_valid_literal (c : Consul) (env : Env) (key : String) (pair : KVPair) (n : Int)
    (hcache : ∀ x, c.Cache.Get env.now key = some x → x = Any.str pair.Value)
    (hnow : env.store key = (some pair, none))
    (hlit : int64Literal pair.Value = some n) :
    ∃ c', c.Int env key = some ((n, none), c') := by
  obtain ⟨c', hg⟩ := get_current_value c env key pair hcache hnow
  exact ⟨c', by simp [Consul.Int, hg, ParseInt_of_literal _ _ hlit]⟩

theorem Int_valid_literal_witness :
    (Consul.mk ⟨["limit"]⟩ ((New oneSecondConf).Cache.Set 0 "limit" (Any.str "42") 0)).Cache.Get
        1100000000 "limit" = none ∧
    changedStore "limit" = (some ⟨"limit", "43"⟩, none) ∧
    int64Literal "43" = some 43 ∧
    (∃ c', (Consul.mk ⟨["limit"]⟩
          ((New oneSecondConf).Cache.Set 0 "limit" (Any.str "42") 0)).Int
        ⟨1100000000, changedStore, by decide⟩ "limit" = some ((43, none), c')) ∧
    (Consul.mk ⟨["limit"]⟩ ((New oneSecondConf).Cache.Set 0 "limit" (Any.str "42") 0)).Cache.Get
        500000000 "limit" = some (Any.str "42") ∧
    (∃ c', (Consul.mk ⟨["limit"]⟩
          ((New oneSecondConf).Cache.Set 0 "limit" (Any.str "42") 0)).Int
        ⟨500000000, scenarioStore, by decide⟩ "limit" = some ((42, none), c')) :=
  have hexp : (Consul.mk ⟨["limit"]⟩
      ((New oneSecondConf).Cache.Set 0 "limit" (Any.str "42") 0)).Cache.Get
        1100000000 "limit" = none := by decide
  have hlive : (Consul.mk ⟨["limit"]⟩
      ((New oneSecondConf).Cache.Set 0 "limit" (Any.str "42") 0)).Cache.Get
        500000000 "limit" = some (Any.str "42") := by decide
  ⟨hexp, by decide, by decide,
    Int_valid_literal
      (Consul.mk ⟨["limit"]⟩ ((New oneSecondConf).Cache.Set 0 "limit" (Any.str "42") 0))
      ⟨1100000000, changedStore, by decide⟩ "limit" ⟨"limit", "43"⟩ 43
      (fun x hx => by rw [hexp] at hx; exact absurd hx (by simp)) (by decide) (by decide),
    hlive,
    Int_valid_literal
      (Consul.mk ⟨["limit"]⟩ ((New oneSecondConf).Cache.Set 0 "limit" (Any.str "42") 0))
      ⟨500000000, scenarioStore, by decide⟩ "limit" ⟨"limit", "42"⟩ 42
      (fun x hx => by rw [hlive] at hx; injection hx with hx; exact hx.symm)
      (by decide) (by decide)⟩

/-! ## Expiry -/

/-- The item that `Set` with the default expiry writes. -/
theorem Set_items (c : cache.Cache) (now : Nat) (k : String) (x : Any) :
    (c.Set now k x cache.DefaultExpiration).items k =
      some ⟨x, if c.defaultExpiration > 0 then toInt64 ((now : Int) + c.defaultExpiration)
               else 0⟩ := by
  simp [cache.Cache.Set, cache.DefaultExpiration]

theorem Set_items_other (c : cache.Cache) (now : Nat) (k k' : String) (x : Any) (d : Int)
    (h : k' ≠ k) : (c.Set now k x d).items k' = c.items k' := by
  simp [cache.Cache.Set, h]

/-- An item written with the default expiry is live as long as the default is not
positive or the clock has not passed the instant of writing plus the default; when the
sum does not fit in an `int64` the expiry that is written is negative and the item is
live for ever. -/
theorem Get_Set_live (c : cache.Cache) (now now' : Nat) (k : String) (x : Any)
    (hn : now < 2 ^ 63)
    (h : c.defaultExpiration ≤ 0 ∨ (now' : Int) ≤ now + c.defaultExpiration) :
    (c.Set now k x cache.DefaultExpiration).Get now' k = some x := by
  have hb := c.defaultExpiration_int64
  unfold cache.Cache.Get
  rw [Set_items]
  simp only
  by_cases hd : c.defaultExpiration > 0
  · rw [if_pos hd, if_neg (by unfold toInt64; omega)]
  · rw [if_neg hd, if_neg (by omega)]

/-- An item written with a positive default expiry is gone once the clock has passed the
instant of writing plus the default. -/
theorem Get_Set_expired (c : cache.Cache) (now now' : Nat) (k : String) (x : Any)
    (hn : now' < 2 ^ 63)
    (hd : 0 < c.defaultExpiration) (h : (now' : Int) > now + c.defaultExpiration) :
    (c.Set now k x cache.DefaultExpiration).Get now' k = none := by
  unfold cache.Cache.Get
  rw [Set_items]
  simp only
  rw [if_pos hd, if_pos (by unfold toInt64; omega)]

/-- A key without a live item has none later either. -/
theorem Get_none_later (c : cache.Cache) (now now' : Nat) (k : String)
    (h : c.Get now k = none) (hle : now ≤ now') : c.Get now' k = none := by
  unfold cache.Cache.Get at h ⊢
  split
  · rfl
  · rename_i item hi
    rw [hi] at h
    simp only at h
    split at h
    · rename_i hx
      rw [if_pos ⟨hx.1, by omega⟩]
    · exact absurd h (by simp)

/-- The typed results are a function of what `get` returns. -/
theorem results_congr (lib : Lib) (c c' : Consul) (env env' : Env) (key : String)
    (h : (c.get env key).map Prod.fst = (c'.get env' key).map Prod.fst) :
    c.results lib env key = c'.results lib env' key := by
  have key_fact : ∀ (a b : Option ((String × Option GoError) × Consul)),
      a.map Prod.fst = b.map Prod.fst →
      (a = none ∧ b = none) ∨ ∃ r c1 c2, a = some (r, c1) ∧ b = some (r, c2) := by
    intro a b hab
    cases a with
    | none =>
      cases b with
      | none => exact Or.inl ⟨rfl, rfl⟩
      | some y => simp at hab
    | some x =>
      cases b with
      | none => simp at hab
      | some y =>
        obtain ⟨r1, c1⟩ := x
        obtain ⟨r2, c2⟩ := y
        simp only [Option.map_some', Option.some.injEq] at hab
        subst hab
        exact Or.inr ⟨_, _, _, rfl, rfl⟩
  rcases key_fact _ _ h with ⟨h1, h2⟩ | ⟨⟨s, e⟩, c1, c2, h1, h2⟩
  · simp [Consul.results, Consul.String, Consul.Int, Consul.Float, Consul.Duration, h1, h2]
  · cases e with
    | some e =>
      simp [Consul.results, Consul.String, Consul.Int, Consul.Float, Consul.Duration, h1, h2]
    | none =>
      simp only [Consul.results, Consul.String, Consul.Int, Consul.Float, Consul.Duration, h1,
        h2, Option.map_some']
      refine Prod.ext rfl (Prod.ext ?_ (Prod.ext ?_ ?_))
      · simp only; split <;> simp
      · simp only; split <;> simp
      · simp only; split <;> simp

/-- C4. For every key and all four getters: when a read misses the cache and fetches the
value from the store, and the store's answer for the key is the same at a second read made
while the entry is live, then the second read is answered from the cache (no lookup is
sent, the state is unchanged), returns the same raw string, and every getter returns the
same typed value and error as at the first read; and these are the results a read
answered by a live store fetch at the time of the second read returns. -/
theorem cache_hit_agrees_with_fetch (lib : Lib) (c : Consul) (env1 env2 : Env) (key : String)
    (pair : KVPair)
    (hmiss : c.Cache.Get env1.now key = none)
    (hstore : env1.store key = (some pair, none))
    (hsame : env2.store key = env1.store key)
    (hlive : c.Cache.defaultExpiration ≤ 0 ∨
      (env2.now : Int) ≤ env1.now + c.Cache.defaultExpiration) :
    ∃ c1, c.get env1 key = some ((pair.Value, none), c1) ∧
      c1.KV.queries = c.KV.queries ++ [key] ∧
      c1.get env2 key = some ((pair.Value, none), c1) ∧
      c1.results lib env2 key = c.results lib env1 key ∧
      ∀ c0 : Consul, c0.Cache.Get env2.now key = none →
        c0.results lib env2 key = c1.results lib env2 key := by
  have hg1 := get_miss_pair c env1 key pair hmiss hstore
  have hg2 := get_hit
    { KV := { queries := c.KV.queries ++ [key] }
      Cache := c.Cache.Set env1.now key (Any.str pair.Value) cache.DefaultExpiration }
    env2 key pair.Value
    (Get_Set_live c.Cache env1.now env2.now key (Any.str pair.Value) env1.now_int64 hlive)
  refine ⟨_, hg1, rfl, hg2, ?_, ?_⟩
  · exact results_congr lib _ _ _ _ key (by rw [hg1, hg2])
  · intro c0 h0
    have hg0 := get_miss_pair c0 env2 key pair h0 (by rw [hsame, hstore])
    exact results_congr lib _ _ _ _ key (by rw [hg0, hg2]; rfl)

theorem cache_hit_agrees_with_fetch_witness :
    (New oneSecondConf).Cache.Get 0 "limit" = none ∧
    ∃ c1, (New oneSecondConf).get ⟨0, scenarioStore, by decide⟩ "limit" = some (("42", none), c1) ∧
      c1.KV.queries = (New oneSecondConf).KV.queries ++ ["limit"] ∧
      c1.get ⟨500000000, scenarioStore, by decide⟩ "limit" = some (("42", none), c1) ∧
      c1.results scenarioLib ⟨500000000, scenarioStore, by decide⟩ "limit"
        = (New oneSecondConf).results scenarioLib ⟨0, scenarioStore, by decide⟩ "limit" ∧
      ∀ c0 : Consul, c0.Cache.Get 500000000 "limit" = none →
        c0.results scenarioLib ⟨500000000, scenarioStore, by decide⟩ "limit"
          = c1.results scenarioLib ⟨500000000, scenarioStore, by decide⟩ "limit" :=
  ⟨rfl, cache_hit_agrees_with_fetch scenarioLib (New oneSecondConf) ⟨0, scenarioStore, by decide⟩
    ⟨500000000, scenarioStore, by decide⟩ "limit" ⟨"limit", "42"⟩ rfl (by decide) rfl
    (Or.inr (by decide))⟩

/-- The getter `Int` on a raw value that the parser accepts. -/
theorem Int_of_get (c c' : Consul) (env : Env) (key s : String) (n : Int)
    (hg : c.get env key = some ((s, none), c')) (hp : ParseInt s = (n, none)) :
    c.Int env key = some ((n, none), c') := by
  simp [Consul.Int, hg, hp]

/-- C5, as stated, fails for the default cache duration `d = 0`: with the store holding
`"limit" = "42"` and an empty cache, the first `Int("limit")` at `0s` fetches and returns
`(42, nil)`, and the call at `1.1s`, which is after `t0 + d = 0s`, returns `(42, nil)`
without a second lookup being sent to the store (the log still holds the one lookup of the
first call): the entry was written without an expiry. -/
theorem Int_zero_duration_no_refetch :
    zeroConf.DefaultCacheTime = 0 ∧
    (((New zeroConf).Int ⟨0, scenarioStore, by decide⟩ "limit").bind fun r1 =>
      (r1.2.Int ⟨1100000000, scenarioStore, by decide⟩ "limit").map fun r2 =>
        (r1.1, r1.2.KV.queries, r2.1, r2.2.KV.queries))
      = some ((42, none), ["limit"], (42, none), ["limit"]) := by
  decide

/-- C5, amended. With a positive default cache duration `d` and a store holding `key`
with an integer literal denoting `n`, from a freshly constructed accessor: the first
`Int(key)` at time `t0` sends a lookup to the store and returns `(n, nil)`; every
`Int(key)` at a time `t` with `t - t0 < d` returns `(n, nil)` and leaves the state as it
is (no lookup is sent); an `Int(key)` at a time after `t0 + d` sends a second lookup to
the store and returns `(n, nil)`. -/
theorem Int_cache_window (conf : Config) (env0 : Env) (key : String) (pair : KVPair) (n : Int)
    (hd : 0 < conf.DefaultCacheTime)
    (hstore : env0.store key = (some pair, none))
    (hlit : int64Literal pair.Value = some n) :
    ∃ c1, (New conf).Int env0 key = some ((n, none), c1) ∧
      c1.KV.queries = [key] ∧
      (∀ env1 : Env, (env1.now : Int) - env0.now < conf.DefaultCacheTime →
        c1.Int env1 key = some ((n, none), c1)) ∧
      (∀ env2 : Env, (env2.now : Int) > env0.now + conf.DefaultCacheTime →
        env2.store key = (some pair, none) →
        ∃ c2, c1.Int env2 key = some ((n, none), c2) ∧ c2.KV.queries = [key, key]) := by
  have hde : (New conf).Cache.defaultExpiration = conf.DefaultCacheTime := by
    simp only [New, cache.New]
    rw [if_neg (by omega)]
  have hmiss : (New conf).Cache.Get env0.now key = none := by
    simp [New, cache.New, cache.Cache.Get]
  have hp := ParseInt_of_literal _ _ hlit
  have hg1 := get_miss_pair (New conf) env0 key pair hmiss hstore
  let c1 : Consul :=
    { KV := { queries := (New conf).KV.queries ++ [key] }
      Cache := (New conf).Cache.Set env0.now key (Any.str pair.Value) cache.DefaultExpiration }
  refine ⟨c1, Int_of_get _ _ env0 key pair.Value n hg1 hp, by simp [c1, New], ?_, ?_⟩
  · intro env1 h1
    have hg := get_hit c1 env1 key pair.Value
      (Get_Set_live (New conf).Cache env0.now env1.now key (Any.str pair.Value)
        env0.now_int64 (Or.inr (by rw [hde]; omega)))
    exact Int_of_get c1 c1 env1 key pair.Value n hg hp
  · intro env2 h2 hs2
    have hg := get_miss_pair c1 env2 key pair
      (Get_Set_expired (New conf).Cache env0.now env2.now key (Any.str pair.Value)
        env2.now_int64 (by rw [hde]; exact hd) (by rw [hde]; exact h2)) hs2
    exact ⟨_, Int_of_get c1 _ env2 key pair.Value n hg hp, by simp [c1, New]⟩

theorem Int_cache_window_witness :
    (0 : Int) < oneSecondConf.DefaultCacheTime ∧
    ∃ c1, (New oneSecondConf).Int ⟨0, scenarioStore, by decide⟩ "limit" = some ((42, none), c1) ∧
      c1.KV.queries = ["limit"] ∧
      (∀ env1 : Env, (env1.now : Int) - (0 : Nat) < oneSecondConf.DefaultCacheTime →
        c1.Int env1 "limit" = some ((42, none), c1)) ∧
      (∀ env2 : Env, (env2.now : Int) > (0 : Nat) + oneSecondConf.DefaultCacheTime →
        env2.store "limit" = (some ⟨"limit", "42"⟩, none) →
        ∃ c2, c1.Int env2 "limit" = some ((42, none), c2) ∧
          c2.KV.queries = ["limit", "limit"]) :=
  ⟨by decide,
    Int_cache_window oneSecondConf ⟨0, scenarioStore, by decide⟩ "limit" ⟨"limit", "42"⟩ 42
      (by decide) (by decide) (by decide)⟩

/-- The expiry written for the largest default cache time: at the clock reading
`946684800000000000` (the year 2000) the sum with `math.MaxInt64` does not fit in an
`int64` and the item gets the negative expiry `-8276687236854775809`. -/
theorem expiry_wraps_at_max_duration :
    (((New maxConf).get ⟨946684800000000000, scenarioStore, by decide⟩ "limit").bind fun r =>
      (r.2.Cache.items "limit").map fun item => item.Expiration)
      = some (-8276687236854775809) := by
  decide

/-- C6. For every key: when the cache holds a live entry (a string `s`) for the key, the
read path returns `s` and leaves the whole state as it is, so no lookup is sent to the
store and the cache is unchanged; when the cache has no live entry and the store lookup
returns a pair with value `v` and no error, the read path returns `v`, exactly one lookup
is logged, and afterwards the cache maps the key to `v` under the default expiry: the item
holds `v` and the expiry `int64(now + default)` when the default is positive and `0`
(never) otherwise, so that the entry is live at once and at every clock reading up to
`now + default`, and gone at every clock reading after `now + default` when the default is
positive; the default of the cache and the items of all other keys are as before. -/
theorem get_cache_effect (c : Consul) (env : Env) (key : String) :
    (∀ s : String, c.Cache.Get env.now key = some (Any.str s) →
      c.get env key = some ((s, none), c)) ∧
    (∀ pair : KVPair, c.Cache.Get env.now key = none → env.store key = (some pair, none) →
      ∃ c', c.get env key = some ((pair.Value, none), c') ∧
        c'.KV.queries = c.KV.queries ++ [key] ∧
        c'.Cache.items key = some ⟨Any.str pair.Value,
          if c.Cache.defaultExpiration > 0
          then toInt64 ((env.now : Int) + c.Cache.defaultExpiration) else 0⟩ ∧
        c'.Cache.Get env.now key = some (Any.str pair.Value) ∧
        (∀ env' : Env, c.Cache.defaultExpiration ≤ 0 ∨
            (env'.now : Int) ≤ env.now + c.Cache.defaultExpiration →
          c'.Cache.Get env'.now key = some (Any.str pair.Value)) ∧
        (∀ env' : Env, 0 < c.Cache.defaultExpiration →
            (env'.now : Int) > env.now + c.Cache.defaultExpiration →
          c'.Cache.Get env'.now key = none) ∧
        c'.Cache.defaultExpiration = c.Cache.defaultExpiration ∧
        ∀ k, k ≠ key → c'.Cache.items k = c.Cache.items k) := by
  refine ⟨fun s h => get_hit c env key s h, fun pair hmiss hs => ?_⟩
  refine ⟨_, get_miss_pair c env key pair hmiss hs, rfl, Set_items _ _ _ _, ?_, ?_, ?_, rfl,
    fun k hk => Set_items_other _ _ _ _ _ _ hk⟩
  · apply Get_Set_live _ _ _ _ _ env.now_int64
    by_cases h : c.Cache.defaultExpiration ≤ 0
    · exact Or.inl h
    · exact Or.inr (by omega)
  · intro env' h
    exact Get_Set_live _ _ _ _ _ env.now_int64 h
  · intro env' hd h
    exact Get_Set_expired _ _ _ _ _ env'.now_int64 hd h

theorem get_cache_effect_witness :
    (Consul.mk ⟨["limit"]⟩ ((New oneSecondConf).Cache.Set 0 "limit" (Any.str "42") 0)).get
        ⟨5, downStore, by decide⟩ "limit"
      = some (("42", none),
          Consul.mk ⟨["limit"]⟩ ((New oneSecondConf).Cache.Set 0 "limit" (Any.str "42") 0)) ∧
    (New maxConf).Cache.Get 946684800000000000 "limit" = none ∧
    scenarioStore "limit" = (some ⟨"limit", "42"⟩, none) ∧
    ∃ c', (New maxConf).get ⟨946684800000000000, scenarioStore, by decide⟩ "limit"
        = some (("42", none), c') ∧
      c'.KV.queries = (New maxConf).KV.queries ++ ["limit"] ∧
      c'.Cache.items "limit" = some ⟨Any.str "42",
        if (New maxConf).Cache.defaultExpiration > 0
        then toInt64 (((946684800000000000 : Nat) : Int) + (New maxConf).Cache.defaultExpiration)
        else 0⟩ ∧
      c'.Cache.Get 946684800000000000 "limit" = some (Any.str "42") ∧
      (∀ env' : Env, (New maxConf).Cache.defaultExpiration ≤ 0 ∨
          (env'.now : Int) ≤ (946684800000000000 : Nat) + (New maxConf).Cache.defaultExpiration →
        c'.Cache.Get env'.now "limit" = some (Any.str "42")) ∧
      (∀ env' : Env, 0 < (New maxConf).Cache.defaultExpiration →
          (env'.now : Int) > (946684800000000000 : Nat) + (New maxConf).Cache.defaultExpiration →
        c'.Cache.Get env'.now "limit" = none) ∧
      c'.Cache.defaultExpiration = (New maxConf).Cache.defaultExpiration ∧
      ∀ k, k ≠ "limit" → c'.Cache.items k = (New maxConf).Cache.items k :=
  ⟨(get_cache_effect
      (Consul.mk ⟨["limit"]⟩ ((New oneSecondConf).Cache.Set 0 "limit" (Any.str "42") 0))
      ⟨5, downStore, by decide⟩ "limit").1 "42" (by decide),
    rfl, by decide,
    (get_cache_effect (New maxConf) ⟨946684800000000000, scenarioStore, by decide⟩
      "limit").2 ⟨"limit", "42"⟩ rfl (by decide)⟩

/-- C7, as stated, fails at its own witness: with the store holding `"bad" = "abc"`,
the error of `Int("bad")` has exactly one wrapper layer, the parse-context layer that
names `bad`, around the `strconv` syntax error; the fetch-context message
`get value from consul` is not among its layers.  It also fails while the cache holds a
live entry with an earlier value of the key: after `Int("limit")` cached `"42"` at `0s`,
with the store holding `"limit" = "abc"` at `0.5s`, `Int("limit")` returns `(42, nil)`,
no error at all. -/
theorem Int_bad_value_single_layer :
    ((New oneSecondConf).Int ⟨0, scenarioStore, by decide⟩ "bad").map Prod.fst
      = some (0, some (GoError.withMessage (GoError.numError (syntaxError "ParseInt" "abc"))
          "parse int from consul value, real value is bad")) ∧
    errConsulMsg ∉ layers (GoError.withMessage (GoError.numError (syntaxError "ParseInt" "abc"))
      "parse int from consul value, real value is bad") ∧
    (¬ ∃ (e : GoError) (c' : Consul) (parseMsg : String),
      (New oneSecondConf).Int ⟨0, scenarioStore, by decide⟩ "bad" = some ((0, some e), c') ∧
      errConsulMsg ∈ layers e ∧ parseMsg ∈ layers e ∧ parseMsg ≠ errConsulMsg) ∧
    brokenStore "limit" = (some ⟨"limit", "abc"⟩, none) ∧
    int64Literal "abc" = none ∧
    (((New oneSecondConf).Int ⟨0, scenarioStore, by decide⟩ "limit").bind fun r1 =>
      (r1.2.Int ⟨500000000, brokenStore, by decide⟩ "limit").map fun r2 =>
        (r2.1, r2.2.KV.queries))
      = some ((42, none), ["limit"]) := by
  have h : ((New oneSecondConf).Int ⟨0, scenarioStore, by decide⟩ "bad").map Prod.fst
      = some (0, some (GoError.withMessage (GoError.numError (syntaxError "ParseInt" "abc"))
          "parse int from consul value, real value is bad")) := by decide
  refine ⟨h, by decide, ?_, by decide, by decide, by decide⟩
  rintro ⟨e, c', m, he, h1, _, _⟩
  rw [he] at h
  simp only [Option.map_some', Option.some.injEq, Prod.mk.injEq, true_and] at h
  subst h
  revert h1
  decide

/-- C7, amended. For a key whose stored value is not a valid integer literal, and for
which the cache holds no live entry or a live entry with that same value, `Int(key)`
returns `0` and an error with exactly one wrapper layer: the parse-context layer, whose
message ends in the key, around the `NumError` of `ParseInt` for the stored value.  The
error has no fetch-context layer. -/
theorem Int_invalid_literal (c : Consul) (env : Env) (key : String) (pair : KVPair)
    (hcache : ∀ x, c.Cache.Get env.now key = some x → x = Any.str pair.Value)
    (hnow : env.store key = (some pair, none))
    (hlit : int64Literal pair.Value = none) :
    ∃ (c' : Consul) (reason : NumErr) (e : GoError),
      c.Int env key = some ((0, some e), c') ∧
      e = GoError.withMessage (GoError.numError ⟨"ParseInt", pair.Value, reason⟩)
            ("parse int from consul value, real value is " ++ key) ∧
      layers e = ["parse int from consul value, real value is " ++ key] ∧
      errConsulMsg ∉ layers e := by
  obtain ⟨c', hg⟩ := get_current_value c env key pair hcache hnow
  obtain ⟨v, reason, hp⟩ := ParseInt_of_not_literal _ hlit
  refine ⟨c', reason, _, ?_, rfl, rfl, ?_⟩
  · simp [Consul.Int, hg, hp, Wrap]
  · simpa [layers] using (parse_int_msg_ne key).symm

theorem Int_invalid_literal_witness :
    (New oneSecondConf).Cache.Get 0 "bad" = none ∧
    scenarioStore "bad" = (some ⟨"bad", "abc"⟩, none) ∧
    int64Literal "abc" = none ∧
    ∃ (c' : Consul) (reason : NumErr) (e : GoError),
      (New oneSecondConf).Int ⟨0, scenarioStore, by decide⟩ "bad" = some ((0, some e), c') ∧
      e = GoError.withMessage (GoError.numError ⟨"ParseInt", "abc", reason⟩)
            ("parse int from consul value, real value is " ++ "bad") ∧
      layers e = ["parse int from consul value, real value is " ++ "bad"] ∧
      errConsulMsg ∉ layers e :=
  have hmiss : (New oneSecondConf).Cache.Get 0 "bad" = none := rfl
  ⟨hmiss, by decide, by decide,
    Int_invalid_literal (New oneSecondConf) ⟨0, scenarioStore, by decide⟩
      "bad" ⟨"bad", "abc"⟩
      (fun x hx => by rw [hmiss] at hx; exact absurd hx (by simp)) (by decide) (by decide)⟩

/-- C8. For a key with no live cache entry whose store lookup fails with the error `e`:
`String` returns `("", e)` with `e` as it is, and `Int`, `Float` and `Duration` return
the zero value and the error that is one `get value from consul` layer around `e`, so
that the layers are that message followed by the layers of `e` and the root cause is the
root cause of `e`. -/
theorem getters_fetch_error (lib : Lib) (c : Consul) (env : Env) (key : String) (e : GoError)
    (hmiss : c.Cache.Get env.now key = none)
    (herr : (env.store key).2 = some e) :
    c.String env key = some (("", some e), c.queried key) ∧
    c.Int env key = some ((0, some (GoError.withMessage e errConsulMsg)), c.queried key) ∧
    c.Float lib env key
      = some ((⟨0⟩, some (GoError.withMessage e errConsulMsg)), c.queried key) ∧
    c.Duration lib env key
      = some ((0, some (GoError.withMessage e errConsulMsg)), c.queried key) ∧
    layers (GoError.withMessage e errConsulMsg) = errConsulMsg :: layers e ∧
    Cause (GoError.withMessage e errConsulMsg) = Cause e := by
  have hg := get_miss_err c env key e hmiss herr
  refine ⟨hg, ?_, ?_, ?_, rfl, rfl⟩
  · simp [Consul.Int, hg, Wrap]
  · simp [Consul.Float, hg, Wrap]
  · simp [Consul.Duration, hg, Wrap]

theorem getters_fetch_error_witness :
    (New oneSecondConf).Cache.Get 0 "limit" = none ∧
    (downStore "limit").2 = some (GoError.errorString "connection refused") ∧
    (New oneSecondConf).String ⟨0, downStore, by decide⟩ "limit"
      = some (("", some (GoError.errorString "connection refused")),
          (New oneSecondConf).queried "limit") ∧
    (New oneSecondConf).Int ⟨0, downStore, by decide⟩ "limit"
      = some ((0, some (GoError.withMessage (GoError.errorString "connection refused")
          errConsulMsg)), (New oneSecondConf).queried "limit") ∧
    (New oneSecondConf).Float scenarioLib ⟨0, downStore, by decide⟩ "limit"
      = some ((⟨0⟩, some (GoError.withMessage (GoError.errorString "connection refused")
          errConsulMsg)), (New oneSecondConf).queried "limit") ∧
    (New oneSecondConf).Duration scenarioLib ⟨0, downStore, by decide⟩ "limit"
      = some ((0, some (GoError.withMessage (GoError.errorString "connection refused")
          errConsulMsg)), (New oneSecondConf).queried "limit") ∧
    layers (GoError.withMessage (GoError.errorString "connection refused") errConsulMsg)
      = errConsulMsg :: layers (GoError.errorString "connection refused") ∧
    Cause (GoError.withMessage (GoError.errorString "connection refused") errConsulMsg)
      = Cause (GoError.errorString "connection refused") :=
  ⟨rfl, rfl,
    getters_fetch_error scenarioLib (New oneSecondConf) ⟨0, downStore, by decide⟩ "limit"
      (GoError.errorString "connection refused") rfl rfl⟩

/-- C9. For a key with no live cache entry whose store lookup fails or returns no pair,
every getter completes and leaves the cache exactly as it was (nothing is written for
this key or any other), and the next getter call for the same key, at the same or a later
time, sends a lookup to the store again. -/
theorem failure_not_cached (lib : Lib) (c : Consul) (env : Env) (call : Call)
    (hmiss : c.Cache.Get env.now call.key = none)
    (hfail : (env.store call.key).2 ≠ none ∨ (env.store call.key).1 = none) :
    ∃ c', c.call lib env call = some c' ∧ c'.Cache = c.Cache ∧
      c'.KV.queries = c.KV.queries ++ [call.key] ∧
      ∀ (env' : Env) (call' : Call), call'.key = call.key → env.now ≤ env'.now →
        ∃ c'', c'.call lib env' call' = some c'' ∧
          c''.KV.queries = c'.KV.queries ++ [call.key] := by
  have hg : c.get env call.key = some (("", (env.store call.key).2), c.queried call.key) := by
    rcases hs : env.store call.key with ⟨p, e⟩
    cases e with
    | some e => exact get_miss_err c env call.key e hmiss (by rw [hs])
    | none =>
      rw [hs] at hfail
      rcases hfail with h | h
      · exact absurd rfl h
      · simp only at h; subst h
        exact get_miss_absent c env call.key hmiss hs
  obtain ⟨c', hc'⟩ := call_total lib c env call ⟨_, _, hg⟩
  obtain ⟨r, hr⟩ := call_state lib c c' env call hc'
  rw [hg] at hr
  injection hr with hr; injection hr with _ hr
  subst hr
  refine ⟨_, hc', rfl, rfl, ?_⟩
  intro env' call' hk hle
  have hmiss' : (c.queried call.key).Cache.Get env'.now call'.key = none := by
    rw [hk]; exact Get_none_later c.Cache env.now env'.now call.key hmiss hle
  have hq : ∀ r2 c2, (c.queried call.key).get env' call'.key = some (r2, c2) →
      c2.KV.queries = (c.queried call.key).KV.queries ++ [call'.key] := by
    intro r2 c2 h2
    unfold Consul.get at h2
    rw [hmiss'] at h2
    simp only [KV.Get] at h2
    split at h2
    · injection h2 with h2; injection h2 with _ h2; rw [← h2]
    · split at h2 <;>
      · injection h2 with h2; injection h2 with _ h2; rw [← h2]
  have htot : ∃ r2 c2, (c.queried call.key).get env' call'.key = some (r2, c2) := by
    rcases hs : env'.store call'.key with ⟨p, e⟩
    cases e with
    | some e => exact ⟨_, _, get_miss_err _ env' call'.key e hmiss' (by rw [hs])⟩
    | none =>
      cases p with
      | none => exact ⟨_, _, get_miss_absent _ env' call'.key hmiss' hs⟩
      | some pair => exact ⟨_, _, get_miss_pair _ env' call'.key pair hmiss' hs⟩
  obtain ⟨c'', hc''⟩ := call_total lib _ env' call' htot
  obtain ⟨r2, hr2⟩ := call_state lib _ c'' env' call' hc''
  exact ⟨c'', hc'', by rw [hq r2 c'' hr2, hk]⟩

theorem failure_not_cached_witness :
    (New oneSecondConf).Cache.Get 0 (Call.Int "limit").key = none ∧
    ∃ c', (New oneSecondConf).call scenarioLib ⟨0, downStore, by decide⟩ (Call.Int "limit") = some c' ∧
      c'.Cache = (New oneSecondConf).Cache ∧
      c'.KV.queries = (New oneSecondConf).KV.queries ++ [(Call.Int "limit").key] ∧
      ∀ (env' : Env) (call' : Call), call'.key = (Call.Int "limit").key →
        (⟨0, downStore, by decide⟩ : Env).now ≤ env'.now →
        ∃ c'', c'.call scenarioLib env' call' = some c'' ∧
          c''.KV.queries = c'.KV.queries ++ [(Call.Int "limit").key] :=
  ⟨rfl,
    failure_not_cached scenarioLib (New oneSecondConf) ⟨0, downStore, by decide⟩ (Call.Int "limit") rfl
      (Or.inl (by decide))⟩

/-- All four getters, from a state in which the cache holds nothing but strings: the call
completes, the cache still holds nothing but strings, and the items of all keys other than
the key of the call are as before. -/
theorem call_keeps_strings (lib : Lib) (c : Consul) (env : Env) (call : Call)
    (h : ∀ k, CachedOnly (fun _ => True) k c) :
    ∃ c', c.call lib env call = some c' ∧ (∀ k, CachedOnly (fun _ => True) k c') ∧
      ∀ k, k ≠ call.key → c'.Cache.items k = c.Cache.items k := by
  obtain ⟨c', hc'⟩ := call_total lib c env call (get_total c env call.key (h call.key))
  refine ⟨c', hc', fun k => cachedOnly_call _ k lib c c' env call (h k) (fun _ _ => trivial) hc',
    ?_⟩
  obtain ⟨r, hr⟩ := call_state lib c c' env call hc'
  intro k hk
  rcases get_state c c' env call.key r hr with rfl | rfl | ⟨pair, _, _, rfl⟩
  · rfl
  · rfl
  · exact Set_items_other _ _ _ _ _ _ hk

/-- C10. Every sequence of `String`, `Int`, `Float` and `Duration` calls on a freshly
constructed accessor (with any keys, at any times, against any store contents) runs
without a panic, and in the state it reaches every item of the cache holds a string, so
that every further getter call completes, the type assertion on a cache hit not failing,
and changes the cache at most at the key it is called with. -/
theorem reachable_cache_holds_strings (lib : Lib) (conf : Config) (hist : List (Env × Call)) :
    ∃ c, (New conf).run lib hist = some c ∧
      (∀ k item, c.Cache.items k = some item → ∃ s, item.Object = Any.str s) ∧
      ∀ (env : Env) (call : Call), ∃ c', c.call lib env call = some c' ∧
        ∀ k, k ≠ call.key → c'.Cache.items k = c.Cache.items k := by
  have hrun : ∀ (hist : List (Env × Call)) (c0 : Consul),
      (∀ k, CachedOnly (fun _ => True) k c0) →
      ∃ c, c0.run lib hist = some c ∧ ∀ k, CachedOnly (fun _ => True) k c := by
    intro hist
    induction hist with
    | nil => exact fun c0 h0 => ⟨c0, rfl, h0⟩
    | cons p rest ih =>
      intro c0 h0
      obtain ⟨env, call⟩ := p
      obtain ⟨c1, hc1, h1, _⟩ := call_keeps_strings lib c0 env call h0
      obtain ⟨c, hc, hstr⟩ := ih c1 h1
      exact ⟨c, by simp only [Consul.run, hc1]; exact hc, hstr⟩
  obtain ⟨c, hc, hstr⟩ := hrun hist (New conf) (fun k => cachedOnly_New _ k conf)
  refine ⟨c, hc, ?_, ?_⟩
  · intro k item hi
    obtain ⟨s, hs, _⟩ := hstr k item hi
    exact ⟨s, hs⟩
  · intro env call
    obtain ⟨c', hc', _, hframe⟩ := call_keeps_strings lib c env call hstr
    exact ⟨c', hc', hframe⟩

end Accessor
